import Mathlib

/-!
Verification of the `nodejs-pipeline` todo application: a shallow embedding of
the browser client controller (`frontend/public/script.js`, class `TodoApp`)
and of the Express edge server (`server.js`).

Modelling conventions:
* JavaScript strings that the claims reason about character by character
  (todo texts, search queries) are `List Char`; fixed literals (filter names,
  HTTP methods, endpoints, toast messages) stay Lean `String`s.
* `created_at` is the numeric timestamp obtained from `new Date(...)`.
* Network interaction is parameterised by the response the environment would
  deliver (`ApiResponse`), and every operation returns the successor client
  state together with the list of observable effects it performs.
-/

/-- A todo record as the backend returns it: server-assigned numeric id, text,
priority literal, completion flag and creation timestamp (the millisecond
value of `new Date(created_at)`). -/
structure Todo where
  id : Nat
  text : List Char
  priority : String
  completed : Bool
  created_at : Int
  deriving DecidableEq, Repr

/-- One character of JavaScript `toLowerCase`, on the Basic Latin range:
code points 65–90 are shifted by 32, everything else is unchanged. -/
def lowerChar (c : Char) : Char :=
  if 65 ≤ c.toNat ∧ c.toNat ≤ 90 then Char.ofNat (c.toNat + 32) else c

/-- JavaScript `String.prototype.toLowerCase`, character by character. -/
def lowerStr (s : List Char) : List Char := s.map lowerChar

/-- White-space test used by JavaScript `String.prototype.trim`
(ASCII portion: space, tab, line feed, carriage return, vertical tab,
form feed). -/
def isJsWhite (c : Char) : Bool :=
  c == ' ' || c == '\t' || c == '\n' || c == '\r' || c.toNat == 11 || c.toNat == 12

/-- JavaScript `String.prototype.trim`: drop white space from both ends. -/
def trimStr (s : List Char) : List Char :=
  ((s.dropWhile isJsWhite).reverse.dropWhile isJsWhite).reverse

/-- Does the pattern (second argument) match at the very start of the first
argument? An empty pattern always matches. -/
def matchesAt : List Char → List Char → Bool
  | _, [] => true
  | [], _ :: _ => false
  | c :: s, d :: p => c == d && matchesAt s p

/-- JavaScript `String.prototype.includes`: the pattern occurs somewhere in
the string (the empty pattern occurs in every string). -/
def hasSubstr : List Char → List Char → Bool
  | [], p => p.isEmpty
  | c :: s, p => matchesAt (c :: s) p || hasSubstr s p

/-- TodoApp.handleSearch stores `e.target.value.toLowerCase().trim()` as the
active search query (and re-renders; rendering is DOM-only). -/
def handleSearch (value : List Char) : List Char := trimStr (lowerStr value)

/-- Order in which the comparator
`(a, b) => new Date(b.created_at) - new Date(a.created_at)` lets `a` stay
before `b`: the comparator is non-positive, i.e. `b.created_at ≤ a.created_at`.
A zero comparator keeps the original relative order, which is what a stable
insertion with this relation does as well. -/
def createdGe (a b : Todo) : Prop := b.created_at ≤ a.created_at

instance : DecidableRel createdGe := fun a b =>
  inferInstanceAs (Decidable (b.created_at ≤ a.created_at))

instance : IsTotal Todo createdGe :=
  ⟨fun a b => Int.le_total b.created_at a.created_at⟩

instance : IsTrans Todo createdGe :=
  ⟨fun _ _ _ hab hbc => le_trans hbc hab⟩

/-- The `filtered.sort(...)` step: JavaScript `Array.prototype.sort` is a
stable sort, modelled by Mathlib's stable insertion sort with `createdGe`. -/
def sortByCreatedDesc (l : List Todo) : List Todo :=
  List.insertionSort createdGe l

/-- TodoApp.getFilteredTodos: copy the cache, apply the status filter when the
active filter is the literal `completed` or `pending`, apply the search filter
when the stored query is non-empty (truthy), then sort newest first. -/
def getFilteredTodos (todos : List Todo) (currentFilter : String)
    (searchQuery : List Char) : List Todo :=
  let filtered := todos
  let filtered :=
    if currentFilter = "completed" then
      filtered.filter (fun todo => todo.completed)
    else if currentFilter = "pending" then
      filtered.filter (fun todo => !todo.completed)
    else filtered
  let filtered :=
    if searchQuery ≠ [] then
      filtered.filter (fun todo => hasSubstr (lowerStr todo.text) searchQuery)
    else filtered
  sortByCreatedDesc filtered

/-- Mutable fields of the `TodoApp` instance that the claims are about
(the remaining fields are DOM element references). -/
structure AppState where
  apiBase : String
  todos : List Todo
  currentFilter : String
  searchQuery : List Char
  deriving DecidableEq, Repr

/-- The method call `this.getFilteredTodos()`: it reads `this.todos`,
`this.currentFilter` and `this.searchQuery` and assigns no field of `this`
(the cache is spread into a fresh array before filtering and sorting). -/
def getFilteredTodosM (st : AppState) : List Todo × AppState :=
  (getFilteredTodos st.todos st.currentFilter st.searchQuery, st)

/-- Observable effects of a client operation, in order of occurrence. -/
inductive Effect where
  /-- A `fetch` of the given method and endpoint (under `this.apiBase`). -/
  | networkCall (method endpoint : String)
  /-- `showToast(message, kind)`: a transient notification. -/
  | toast (message kind : String)
  /-- `renderTodos()`: rebuild the list view from `getFilteredTodos()`. -/
  | render
  /-- `loadStats()`: fire-and-forget refresh of the aggregate counters; it
  issues its own `apiCall` and touches only the three stat DOM nodes,
  never `this.todos`. -/
  | statsRefresh
  deriving DecidableEq, Repr

/-- Is the effect a network request? -/
def Effect.isNetworkCall : Effect → Bool
  | .networkCall _ _ => true
  | _ => false

/-- Outcome the environment delivers for one `fetch`: a parsed JSON payload,
a non-2xx response (`response.ok` false), or a transport error. -/
inductive ApiResponse (α : Type) where
  | success (data : α)
  | httpError (status : Nat)
  | transportError (msg : String)
  deriving DecidableEq, Repr

/-- Both failure modes, treated uniformly by `apiCall`. -/
def ApiResponse.isFailure : ApiResponse α → Bool
  | .success _ => false
  | .httpError _ => true
  | .transportError _ => true

/-- TodoApp.apiCall: perform the fetch; on a non-2xx status throw
`HTTP error! status: ...`; on any error show an `Error: ...` toast and
rethrow, so the caller's `catch` sees `none`. The busy overlay is shown for
the duration of the call and hidden in `finally` (DOM-only). -/
def apiCall (method endpoint : String) (resp : ApiResponse α) :
    Option α × List Effect :=
  match resp with
  | .success d => (some d, [.networkCall method endpoint])
  | .httpError status =>
      (none, [.networkCall method endpoint,
        .toast ("Error: HTTP error! status: " ++ toString status) "error"])
  | .transportError msg =>
      (none, [.networkCall method endpoint,
        .toast ("Error: " ++ msg) "error"])

/-- TodoApp.addTodo: POST `/todos`; on success push the server's record onto
the cache, re-render, refresh stats and toast; on failure only log. -/
def addTodo (st : AppState) (text : List Char) (priority : String)
    (resp : ApiResponse Todo) : AppState × List Effect :=
  match apiCall "POST" "/todos" resp with
  | (some newTodo, effs) =>
      ({ st with todos := st.todos ++ [newTodo] },
        effs ++ [.render, .statsRefresh,
          .toast "Todo added successfully!" "success"])
  | (none, effs) => (st, effs)

/-- TodoApp.updateTodo: PUT `/todos/{id}` with the partial fields as body; on
success replace the cached record at the index found by
`findIndex(todo => todo.id === id)` — when there is none the cache is left
alone — and toast unconditionally; on failure only log. -/
def updateTodo (st : AppState) (id : Nat) (updates : List (String × String))
    (resp : ApiResponse Todo) : AppState × List Effect :=
  match apiCall "PUT" ("/todos/" ++ toString id) resp with
  | (some updatedTodo, effs) =>
      match st.todos.findIdx? (fun todo => todo.id == id) with
      | some index =>
          ({ st with todos := st.todos.set index updatedTodo },
            effs ++ [.render, .statsRefresh,
              .toast "Todo updated successfully!" "success"])
      | none =>
          (st, effs ++ [.toast "Todo updated successfully!" "success"])
  | (none, effs) => (st, effs)

/-- TodoApp.deleteTodo: DELETE `/todos/{id}`; on success drop every cached
record with that id, re-render, refresh stats and toast; on failure only
log. -/
def deleteTodo (st : AppState) (id : Nat) (resp : ApiResponse Unit) :
    AppState × List Effect :=
  match apiCall "DELETE" ("/todos/" ++ toString id) resp with
  | (some _, effs) =>
      ({ st with todos := st.todos.filter (fun todo => todo.id != id) },
        effs ++ [.render, .statsRefresh,
          .toast "Todo deleted successfully!" "success"])
  | (none, effs) => (st, effs)

/-- TodoApp.toggleTodo: PATCH `/todos/toggle/{id}`; on success replace the
cached record when present, then toast `Todo completed!` or `Todo reopened!`
according to the returned record; on failure only log. -/
def toggleTodo (st : AppState) (id : Nat) (resp : ApiResponse Todo) :
    AppState × List Effect :=
  match apiCall "PATCH" ("/todos/toggle/" ++ toString id) resp with
  | (some updatedTodo, effs) =>
      match st.todos.findIdx? (fun todo => todo.id == id) with
      | some index =>
          ({ st with todos := st.todos.set index updatedTodo },
            effs ++ [.render, .statsRefresh,
              .toast ("Todo " ++
                (if updatedTodo.completed then "completed" else "reopened")
                ++ "!") "success"])
      | none =>
          (st, effs ++
            [.toast ("Todo " ++
              (if updatedTodo.completed then "completed" else "reopened")
              ++ "!") "success"])
  | (none, effs) => (st, effs)

/-- TodoApp.handleAddTodo: trim the input; empty text is rejected locally with
an error toast and no request; otherwise delegate to `addTodo` (the form
reset afterwards touches only DOM elements). -/
def handleAddTodo (st : AppState) (inputValue : List Char)
    (priorityValue : String) (resp : ApiResponse Todo) :
    AppState × List Effect :=
  let text := trimStr inputValue
  if text = [] then (st, [.toast "Please enter a todo text" "error"])
  else addTodo st text priorityValue resp

/-- Case-insensitive containment in the sense of the specification: the
lowercased text contains the lowercased pattern. -/
def ciContains (s p : List Char) : Bool :=
  hasSubstr (lowerStr s) (lowerStr p)

/-- An HTTP request as the edge server dispatches it. -/
structure Request where
  method : String
  path : String
  deriving DecidableEq, Repr

/-- Body shape of the structured JSON errors the server sends. -/
structure JsonError where
  error : String
  message : String
  deriving DecidableEq, Repr

/-- The fixed payload of the proxy's `onError` handler. -/
def backendUnavailableError : JsonError :=
  { error := "Backend server unavailable"
    message := "Please make sure the Flask backend is running on port 5000" }

/-- Possible responses of the edge server. -/
inductive EdgeResponse where
  /-- A file of the public directory, served by `express.static`. -/
  | staticFile (path : String)
  /-- The request was forwarded to the backend by the `/api` proxy mount. -/
  | proxied
  /-- `public/index.html`, sent by the `app.get` catch-all. -/
  | indexHtml
  /-- A structured JSON error with the given status code. -/
  | jsonError (status : Nat) (body : JsonError)
  /-- Express's default 404 handler: no layer matched the request. -/
  | notFound
  deriving DecidableEq, Repr

/-- Does a path fall under the `app.use` mount point `/api`? Express mounts
match the path itself and any extension of it at a segment boundary. -/
def isApiPath (p : String) : Bool :=
  p == "/api" || matchesAt p.data "/api/".data

/-- Express routes registered with `app.get` answer GET requests, and HEAD
requests are served by the matching GET route. -/
def isGetOrHead (m : String) : Bool :=
  m == "GET" || m == "HEAD"

/-- Does `express.static` serve this request? Only GET and HEAD requests for
a file present in the public directory; anything else falls through. -/
def staticServes (staticFiles : List String) (req : Request) : Bool :=
  isGetOrHead req.method && staticFiles.contains req.path

/-- Routing of the edge server, layer by layer in registration order:
`express.static` over the public directory, the `/api` proxy mount (whose
`onError` handler answers 500 with the fixed payload when the backend is
unreachable), the `app.get('*')` catch-all sending `index.html`, and
Express's default 404 when no layer matched. -/
def handleRequest (staticFiles : List String) (backendUp : Bool)
    (req : Request) : EdgeResponse :=
  if staticServes staticFiles req then .staticFile req.path
  else if isApiPath req.path then
    if backendUp then .proxied else .jsonError 500 backendUnavailableError
  else if isGetOrHead req.method then .indexHtml
  else .notFound

/-- Strict version of `createdGe`: strictly later creation first. -/
def createdGt (a b : Todo) : Prop := b.created_at < a.created_at

instance : DecidableRel createdGt := fun a b =>
  inferInstanceAs (Decidable (b.created_at < a.created_at))

/-- Two well-formed records (distinct ids, non-empty trimmed texts) sharing
one creation timestamp. -/
def tieA : Todo :=
  { id := 1, text := ['a'], priority := "medium", completed := false,
    created_at := 5 }

/-- Companion of `tieA` with the same creation timestamp. -/
def tieB : Todo :=
  { id := 2, text := ['b'], priority := "low", completed := false,
    created_at := 5 }

/-- Sample completed record, older timestamp. -/
def sampleOld : Todo :=
  { id := 3, text := ['o', 'l', 'd'], priority := "low", completed := true,
    created_at := 10 }

/-- Sample pending record, newer timestamp. -/
def sampleNew : Todo :=
  { id := 4, text := ['n', 'e', 'w'], priority := "high", completed := false,
    created_at := 20 }

/-- A small concrete client state. -/
def sampleState : AppState :=
  { apiBase := "/api", todos := [sampleOld, sampleNew],
    currentFilter := "all", searchQuery := [] }

/-- The same client state as `sampleState` up to the field that
`getFilteredTodos` never reads. -/
def sampleStateB : AppState :=
  { sampleState with apiBase := "/proxy" }

theorem lowerChar_toNat_of_upper {c : Char} (h1 : 65 ≤ c.toNat)
    (h2 : c.toNat ≤ 90) : (lowerChar c).toNat = c.toNat + 32 := by
  have hv : (c.toNat + 32).isValidChar := Or.inl (by omega)
  unfold lowerChar
  rw [if_pos (And.intro h1 h2), Char.ofNat, dif_pos hv]
  simp [Char.ofNatAux, Char.toNat, UInt32.ofNat', UInt32.toNat,
    BitVec.toNat_ofNatLt]

theorem lowerChar_eq_of_not_upper {c : Char}
    (h : ¬(65 ≤ c.toNat ∧ c.toNat ≤ 90)) : lowerChar c = c := by
  unfold lowerChar
  exact if_neg h

theorem lowerChar_idem (c : Char) : lowerChar (lowerChar c) = lowerChar c := by
  by_cases h : 65 ≤ c.toNat ∧ c.toNat ≤ 90
  · have ht : (lowerChar c).toNat = c.toNat + 32 :=
      lowerChar_toNat_of_upper h.1 h.2
    have hn : ¬(65 ≤ (lowerChar c).toNat ∧ (lowerChar c).toNat ≤ 90) := by
      omega
    exact lowerChar_eq_of_not_upper hn
  · rw [lowerChar_eq_of_not_upper h, lowerChar_eq_of_not_upper h]

theorem lowerStr_of_fixed {s : List Char} (h : ∀ c ∈ s, lowerChar c = c) :
    lowerStr s = s := by
  induction s with
  | nil => rfl
  | cons c t ih =>
      have hc : lowerChar c = c := h c (by simp)
      have ht : lowerStr t = t := ih (fun x hx => h x (by simp [hx]))
      simp only [lowerStr, List.map_cons] at ht ⊢
      rw [hc, ht]

theorem mem_of_mem_trimStr {c : Char} {s : List Char} (h : c ∈ trimStr s) :
    c ∈ s := by
  unfold trimStr at h
  rw [List.mem_reverse] at h
  have h2 : c ∈ (s.dropWhile isJsWhite).reverse :=
    (List.dropWhile_sublist _).subset h
  rw [List.mem_reverse] at h2
  exact (List.dropWhile_sublist _).subset h2

theorem lowerStr_handleSearch (value : List Char) :
    lowerStr (handleSearch value) = handleSearch value := by
  apply lowerStr_of_fixed
  intro c hc
  have hmem : c ∈ lowerStr value := mem_of_mem_trimStr hc
  obtain ⟨d, _, rfl⟩ := List.mem_map.mp (by simpa [lowerStr] using hmem)
  exact lowerChar_idem d

theorem hasSubstr_nil (s : List Char) : hasSubstr s [] = true := by
  cases s <;> simp [hasSubstr, matchesAt]

theorem getFilteredTodos_all_nil (todos : List Todo) :
    getFilteredTodos todos "all" [] = sortByCreatedDesc todos := by
  simp [getFilteredTodos]

theorem sortByCreatedDesc_perm (l : List Todo) :
    (sortByCreatedDesc l).Perm l :=
  List.perm_insertionSort createdGe l

theorem sortByCreatedDesc_sorted (l : List Todo) :
    (sortByCreatedDesc l).Pairwise createdGe :=
  List.sorted_insertionSort createdGe l

theorem getFilteredTodos_completed_nil (todos : List Todo) :
    getFilteredTodos todos "completed" [] =
      sortByCreatedDesc (todos.filter (fun todo => todo.completed)) := by
  simp [getFilteredTodos]

theorem getFilteredTodos_pending_nil (todos : List Todo) :
    getFilteredTodos todos "pending" [] =
      sortByCreatedDesc (todos.filter (fun todo => !todo.completed)) := by
  simp [getFilteredTodos]

theorem getFilteredTodos_all_search (todos : List Todo) (q : List Char)
    (hq : q ≠ []) :
    getFilteredTodos todos "all" q =
      sortByCreatedDesc
        (todos.filter (fun todo => hasSubstr (lowerStr todo.text) q)) := by
  simp [getFilteredTodos, hq]

/-- C1 counterexample: the cache `[tieA, tieB]` is well formed (distinct ids,
non-empty trimmed texts) and `getFilteredTodos` with filter `all` and empty
search returns it in full, yet the result is NOT strictly descending by
creation timestamp, because the two records share the timestamp 5; the claim's
strictness cannot hold on such a cache. -/
theorem claimC1_cex :
    (([tieA, tieB].map Todo.id).Nodup
      ∧ trimStr tieA.text ≠ [] ∧ trimStr tieB.text ≠ []
      ∧ (getFilteredTodos [tieA, tieB] "all" []).Perm [tieA, tieB])
    ∧ ¬ (getFilteredTodos [tieA, tieB] "all" []).Pairwise createdGt := by
  decide

/-- C1 (amended): for every local cache, `getFilteredTodos` with the active
filter `all` and an empty search query returns the full cache — no record
added, dropped, or duplicated — sorted by descending creation timestamp
(newest first), non-strictly; the order is strictly descending whenever all
creation timestamps in the cache are distinct. -/
theorem claimC1 (todos : List Todo) :
    (getFilteredTodos todos "all" []).Perm todos
    ∧ (getFilteredTodos todos "all" []).Pairwise createdGe
    ∧ ((todos.map Todo.created_at).Nodup →
        (getFilteredTodos todos "all" []).Pairwise createdGt) := by
  refine ⟨?_, ?_, ?_⟩
  · rw [getFilteredTodos_all_nil]
    exact sortByCreatedDesc_perm todos
  · rw [getFilteredTodos_all_nil]
    exact sortByCreatedDesc_sorted todos
  · intro hnodup
    rw [getFilteredTodos_all_nil]
    have hperm := sortByCreatedDesc_perm todos
    have hmap : ((sortByCreatedDesc todos).map Todo.created_at).Perm
        (todos.map Todo.created_at) := hperm.map Todo.created_at
    have hnd : ((sortByCreatedDesc todos).map Todo.created_at).Nodup :=
      hmap.nodup_iff.mpr hnodup
    have hpw : (sortByCreatedDesc todos).Pairwise
        (fun a b => a.created_at ≠ b.created_at) := by
      rw [List.Nodup, List.pairwise_map] at hnd
      exact hnd
    have hge := sortByCreatedDesc_sorted todos
    exact (hge.and hpw).imp (fun h => lt_of_le_of_ne h.1 (Ne.symm h.2))

/-- C1 witness: on a concrete cache with distinct timestamps the amended
theorem yields the permutation, the descending order, and — the distinctness
hypothesis being discharged by evaluation — the strictly descending order. -/
theorem claimC1_witness :
    ([sampleOld, sampleNew].map Todo.created_at).Nodup
    ∧ (getFilteredTodos [sampleOld, sampleNew] "all" []).Perm
        [sampleOld, sampleNew]
    ∧ (getFilteredTodos [sampleOld, sampleNew] "all" []).Pairwise createdGe
    ∧ (getFilteredTodos [sampleOld, sampleNew] "all" []).Pairwise createdGt :=
  ⟨by decide, (claimC1 [sampleOld, sampleNew]).1,
    (claimC1 [sampleOld, sampleNew]).2.1,
    (claimC1 [sampleOld, sampleNew]).2.2 (by decide)⟩

/-- C2: with filter `completed` and empty search, `getFilteredTodos` returns
exactly the records whose `completed` field is true, and with filter
`pending` exactly the complement, the records whose `completed` field is
false (in both cases up to the final newest-first reordering). -/
theorem claimC2 (todos : List Todo) :
    (getFilteredTodos todos "completed" []).Perm
      (todos.filter (fun todo => todo.completed))
    ∧ (getFilteredTodos todos "pending" []).Perm
      (todos.filter (fun todo => !todo.completed)) := by
  constructor
  · rw [getFilteredTodos_completed_nil]
    exact sortByCreatedDesc_perm _
  · rw [getFilteredTodos_pending_nil]
    exact sortByCreatedDesc_perm _

/-- C3: for every cache and every raw search input, `getFilteredTodos` with
filter `all` and the stored query produced by `handleSearch` (the lowercased,
trimmed input) returns exactly the records whose text contains that query
case-insensitively. -/
theorem claimC3 (todos : List Todo) (value : List Char) :
    (getFilteredTodos todos "all" (handleSearch value)).Perm
      (todos.filter (fun todo => ciContains todo.text (handleSearch value))) := by
  have hlow : ∀ todo : Todo, ciContains todo.text (handleSearch value)
      = hasSubstr (lowerStr todo.text) (handleSearch value) := by
    intro todo
    unfold ciContains
    rw [lowerStr_handleSearch]
  by_cases hq : handleSearch value = []
  · rw [hq, getFilteredTodos_all_nil]
    have hfull : todos.filter (fun todo => ciContains todo.text []) = todos := by
      apply List.filter_eq_self.mpr
      intro a _
      unfold ciContains
      exact hasSubstr_nil (lowerStr a.text)
    rw [hfull]
    exact sortByCreatedDesc_perm todos
  · rw [getFilteredTodos_all_search todos _ hq]
    have hpred : todos.filter (fun todo => ciContains todo.text (handleSearch value))
        = todos.filter
            (fun todo => hasSubstr (lowerStr todo.text) (handleSearch value)) :=
      List.filter_congr (fun a _ => hlow a)
    rw [hpred]
    exact sortByCreatedDesc_perm _

/-- C4: when the trimmed input text is empty, handleAddTodo performs no
network call (not even a stats refresh), leaves the entire client state — in
particular the todo cache — unchanged, and surfaces exactly one transient
error notification. -/
theorem claimC4 (st : AppState) (inputValue : List Char)
    (priorityValue : String) (resp : ApiResponse Todo)
    (hempty : trimStr inputValue = []) :
    handleAddTodo st inputValue priorityValue resp
      = (st, [Effect.toast "Please enter a todo text" "error"])
    ∧ (handleAddTodo st inputValue priorityValue resp).2.all
        (fun e => !e.isNetworkCall) = true := by
  have h : handleAddTodo st inputValue priorityValue resp
      = (st, [Effect.toast "Please enter a todo text" "error"]) := by
    simp [handleAddTodo, hempty]
  exact ⟨h, by rw [h]; rfl⟩

/-- C4 witness: a whitespace-only input on the sample state. -/
theorem claimC4_witness :
    trimStr [' '] = []
    ∧ (handleAddTodo sampleState [' '] "medium"
          (ApiResponse.transportError "Failed to fetch")
        = (sampleState, [Effect.toast "Please enter a todo text" "error"])
      ∧ (handleAddTodo sampleState [' '] "medium"
          (ApiResponse.transportError "Failed to fetch")).2.all
          (fun e => !e.isNetworkCall) = true) :=
  ⟨by decide, claimC4 sampleState [' '] "medium"
    (ApiResponse.transportError "Failed to fetch") (by decide)⟩

/-- C5: when the API call fails — non-2xx response or transport error — each
of the four mutating operations abandons the operation and leaves the client
state, in particular the todo cache, exactly as it was; the cache is only
modified after a successful round trip. -/
theorem claimC5 (st : AppState) (text : List Char) (priority : String)
    (idU idD idT : Nat) (updates : List (String × String))
    (rAdd rUpd : ApiResponse Todo) (rDel : ApiResponse Unit)
    (rTog : ApiResponse Todo)
    (hAdd : rAdd.isFailure = true) (hUpd : rUpd.isFailure = true)
    (hDel : rDel.isFailure = true) (hTog : rTog.isFailure = true) :
    (addTodo st text priority rAdd).1 = st
    ∧ (updateTodo st idU updates rUpd).1 = st
    ∧ (deleteTodo st idD rDel).1 = st
    ∧ (toggleTodo st idT rTog).1 = st := by
  refine ⟨?_, ?_, ?_, ?_⟩
  · cases rAdd with
    | success d => simp [ApiResponse.isFailure] at hAdd
    | httpError s => rfl
    | transportError m => rfl
  · cases rUpd with
    | success d => simp [ApiResponse.isFailure] at hUpd
    | httpError s => rfl
    | transportError m => rfl
  · cases rDel with
    | success d => simp [ApiResponse.isFailure] at hDel
    | httpError s => rfl
    | transportError m => rfl
  · cases rTog with
    | success d => simp [ApiResponse.isFailure] at hTog
    | httpError s => rfl
    | transportError m => rfl

/-- C5 witness: a 500 response, a transport error and a 404 response against
the sample state, each leaving it untouched. -/
theorem claimC5_witness :
    ((ApiResponse.httpError 500 : ApiResponse Todo).isFailure = true
      ∧ (ApiResponse.transportError "Failed to fetch" :
          ApiResponse Todo).isFailure = true
      ∧ (ApiResponse.httpError 404 : ApiResponse Unit).isFailure = true)
    ∧ (addTodo sampleState ['x'] "low" (ApiResponse.httpError 500)).1
        = sampleState
    ∧ (updateTodo sampleState 3 [("text", "y")]
        (ApiResponse.transportError "Failed to fetch")).1 = sampleState
    ∧ (deleteTodo sampleState 3 (ApiResponse.httpError 404)).1 = sampleState
    ∧ (toggleTodo sampleState 3 (ApiResponse.httpError 500)).1
        = sampleState := by
  have h := claimC5 sampleState ['x'] "low" 3 3 3 [("text", "y")]
    (ApiResponse.httpError 500) (ApiResponse.transportError "Failed to fetch")
    (ApiResponse.httpError 404) (ApiResponse.httpError 500)
    (by decide) (by decide) (by decide) (by decide)
  exact ⟨⟨by decide, by decide, by decide⟩, h.1, h.2.1, h.2.2.1, h.2.2.2⟩

/-- C6 counterexample: a POST request to a path that matches neither a static
file nor the API prefix. The catch-all is registered with app.get, which
answers only GET (and HEAD) requests, so the POST falls through to the
Express default 404 instead of receiving the SPA entry document. -/
theorem claimC6_cex :
    staticServes [] { method := "POST", path := "/dashboard" } = false
    ∧ isApiPath "/dashboard" = false
    ∧ handleRequest [] true { method := "POST", path := "/dashboard" }
        = EdgeResponse.notFound
    ∧ handleRequest [] true { method := "POST", path := "/dashboard" }
        ≠ EdgeResponse.indexHtml := by
  decide

/-- C6 (amended): every GET or HEAD request that matches neither a static
file nor the API prefix is answered with the single-page entry document
index.html; requests with any other HTTP method fall through to the Express
default 404 handler instead. -/
theorem claimC6 (staticFiles : List String) (backendUp : Bool) (req : Request)
    (hstatic : staticServes staticFiles req = false)
    (hapi : isApiPath req.path = false)
    (hmethod : isGetOrHead req.method = true) :
    handleRequest staticFiles backendUp req = EdgeResponse.indexHtml := by
  simp [handleRequest, hstatic, hapi, hmethod]

/-- C6 witness: a GET request for an unmatched client-side route. -/
theorem claimC6_witness :
    staticServes ["/index.html"] { method := "GET", path := "/dashboard" }
        = false
    ∧ isApiPath "/dashboard" = false
    ∧ isGetOrHead "GET" = true
    ∧ handleRequest ["/index.html"] true
        { method := "GET", path := "/dashboard" } = EdgeResponse.indexHtml :=
  ⟨by decide, by decide, by decide,
    claimC6 ["/index.html"] true { method := "GET", path := "/dashboard" }
      (by decide) (by decide) (by decide)⟩

/-- C7: for every request under the API prefix — given that, as in this
repository, no file of the public directory lies under the API prefix — when
the connection to the backend fails, the edge server responds with the one
fixed JSON payload of the proxy onError handler and status 500, which is a
5xx status code. -/
theorem claimC7 (staticFiles : List String) (req : Request)
    (hapi : isApiPath req.path = true)
    (hnostatic : ∀ p ∈ staticFiles, isApiPath p = false) :
    handleRequest staticFiles false req
      = EdgeResponse.jsonError 500 backendUnavailableError
    ∧ 500 / 100 = 5 := by
  have hs : staticServes staticFiles req = false := by
    unfold staticServes
    by_cases hmem : req.path ∈ staticFiles
    · rw [hnostatic req.path hmem] at hapi
      exact absurd hapi (by decide)
    · simp [hmem]
  refine ⟨?_, rfl⟩
  simp [handleRequest, hs, hapi]

/-- C7 witness: a GET under the API prefix while the backend is down. -/
theorem claimC7_witness :
    isApiPath "/api/todos" = true
    ∧ (∀ p ∈ ["/index.html"], isApiPath p = false)
    ∧ handleRequest ["/index.html"] false
        { method := "GET", path := "/api/todos" }
        = EdgeResponse.jsonError 500 backendUnavailableError
    ∧ 500 / 100 = 5 :=
  ⟨by decide, by decide,
    claimC7 ["/index.html"] { method := "GET", path := "/api/todos" }
      (by decide) (by decide)⟩

/-- C8: getFilteredTodos is deterministic — its result depends only on the
todo cache, the active filter, and the stored search query, not on any other
field of the instance — and side-effect-free: the call leaves the instance
state (in particular this.todos, currentFilter and searchQuery) unchanged. -/
theorem claimC8 (st1 st2 : AppState)
    (htodos : st1.todos = st2.todos)
    (hfilter : st1.currentFilter = st2.currentFilter)
    (hsearch : st1.searchQuery = st2.searchQuery) :
    (getFilteredTodosM st1).1 = (getFilteredTodosM st2).1
    ∧ (getFilteredTodosM st1).2 = st1
    ∧ (getFilteredTodosM st2).2 = st2 := by
  unfold getFilteredTodosM
  rw [htodos, hfilter, hsearch]
  exact ⟨rfl, rfl, rfl⟩

/-- C8 witness: two states differing only in the field getFilteredTodos never
reads produce the same list, and both calls leave their state unchanged. -/
theorem claimC8_witness :
    sampleState.todos = sampleStateB.todos
    ∧ sampleState.currentFilter = sampleStateB.currentFilter
    ∧ sampleState.searchQuery = sampleStateB.searchQuery
    ∧ ((getFilteredTodosM sampleState).1 = (getFilteredTodosM sampleStateB).1
      ∧ (getFilteredTodosM sampleState).2 = sampleState
      ∧ (getFilteredTodosM sampleStateB).2 = sampleStateB) :=
  ⟨by decide, by decide, by decide,
    claimC8 sampleState sampleStateB (by decide) (by decide) (by decide)⟩

/-- C9: a successful updateTodo or toggleTodo whose id matches no cached
record leaves the client state unchanged: findIndex yields no position, so
the server's returned record is discarded rather than inserted (only the
success toast still fires). -/
theorem claimC9 (st : AppState) (id : Nat) (updates : List (String × String))
    (uUpd uTog : Todo) (habsent : ∀ todo ∈ st.todos, todo.id ≠ id) :
    (updateTodo st id updates (ApiResponse.success uUpd)).1 = st
    ∧ (toggleTodo st id (ApiResponse.success uTog)).1 = st := by
  have hfind : st.todos.findIdx? (fun todo => todo.id == id) = none := by
    rw [List.findIdx?_eq_none_iff]
    intro x hx
    simpa using habsent x hx
  constructor
  · simp [updateTodo, apiCall, hfind]
  · simp [toggleTodo, apiCall, hfind]

/-- C9 witness: successful responses for an id absent from the sample cache
leave it untouched. -/
theorem claimC9_witness :
    (∀ todo ∈ sampleState.todos, todo.id ≠ 99)
    ∧ (updateTodo sampleState 99 [("text", "y")]
        (ApiResponse.success tieA)).1 = sampleState
    ∧ (toggleTodo sampleState 99 (ApiResponse.success tieB)).1
        = sampleState :=
  ⟨by decide,
    (claimC9 sampleState 99 [("text", "y")] tieA tieB (by decide)).1,
    (claimC9 sampleState 99 [("text", "y")] tieA tieB (by decide)).2⟩

/-- C10: any active filter value other than the literals completed and
pending — not only the literal all — applies no status filtering, so
getFilteredTodos behaves identically to filter all on the same cache and
search query. -/
theorem claimC10 (todos : List Todo) (currentFilter : String)
    (searchQuery : List Char) (hc : currentFilter ≠ "completed")
    (hp : currentFilter ≠ "pending") :
    getFilteredTodos todos currentFilter searchQuery
      = getFilteredTodos todos "all" searchQuery := by
  simp [getFilteredTodos, hc, hp]

/-- C10 witness: the filter literal active, which the UI never produces, is
treated exactly like all. -/
theorem claimC10_witness :
    ("active" : String) ≠ "completed"
    ∧ ("active" : String) ≠ "pending"
    ∧ getFilteredTodos [sampleOld, sampleNew] "active" ['o']
        = getFilteredTodos [sampleOld, sampleNew] "all" ['o'] :=
  ⟨by decide, by decide,
    claimC10 [sampleOld, sampleNew] "active" ['o'] (by decide) (by decide)⟩
